import Mathlib

/-!
Shallow embedding of `src/collector.py` (sgo-mcc/parking-data).

The collector polls a paginated HTTP API for parking-sensor records,
flattens each record into a fixed eight-field mapping, and persists the
flattened records either as an append-only CSV file or as per-run
compressed JSONL snapshots.  JSON values are modelled by `JValue`
(strings, integers, booleans, null, objects, arrays); Python dicts are
association lists with first-occurrence lookup; the filesystem is an
association list from path to file content; `gzip` and JSON text encoding
are treated as transparent: a JSONL file's content is the list of the
JSON objects on its lines.  Fallible Python code (AttributeError on
calling `.get` of a non-dict, ValueError from `strptime` / `replace`)
is modelled with `Except`.
-/

set_option autoImplicit false

namespace Collector

/-- JSON-style values as delivered by the API and stored in records.
Floating-point numbers do not occur in any claim; numeric fields are
modelled with integers. -/
inductive JValue where
  | null : JValue
  | bool (b : Bool) : JValue
  | int (n : Int) : JValue
  | str (s : String) : JValue
  | arr (xs : List JValue) : JValue
  | obj (kvs : List (String × JValue)) : JValue

/-- A raw API record: a Python dict, modelled as an association list
(first occurrence wins, as in a parsed-JSON dict with unique keys). -/
abbrev RawRecord := List (String × JValue)

/-- First-occurrence lookup in a Python dict. -/
def pyGet : List (String × JValue) → String → Option JValue
  | [], _ => none
  | kv :: rest, k => if kv.1 = k then some kv.2 else pyGet rest k

/-- Python `d.get(key, dflt)` on a dict. -/
def dictGet (kvs : List (String × JValue)) (key : String) (dflt : JValue) : JValue :=
  (pyGet kvs key).getD dflt

/-- Python attribute access `.get` on an arbitrary value: only a dict has
it; anything else raises AttributeError. -/
def asDict : JValue → Except String (List (String × JValue))
  | .obj kvs => .ok kvs
  | _ => .error "AttributeError"

/-- Whether a `JValue` is a string (used to check the claim that every
flattened value is stored as text). -/
def JValue.isStr : JValue → Bool
  | .str _ => true
  | _ => false

/-- The flattened record built by `flatten_record`: a Python dict with
eight keys inserted in this fixed order. -/
structure FlatRecord where
  api_call_time : JValue
  lastupdated : JValue
  status_timestamp : JValue
  zone_number : JValue
  status_description : JValue
  kerbsideid : JValue
  location_lon : JValue
  location_lat : JValue

/-- The flattened dict as an association list in insertion order. -/
def FlatRecord.toPairs (fr : FlatRecord) : List (String × JValue) :=
  [("api_call_time", fr.api_call_time),
   ("lastupdated", fr.lastupdated),
   ("status_timestamp", fr.status_timestamp),
   ("zone_number", fr.zone_number),
   ("status_description", fr.status_description),
   ("kerbsideid", fr.kerbsideid),
   ("location_lon", fr.location_lon),
   ("location_lat", fr.location_lat)]

/-- The canonical eight field names, in the order the code lists them. -/
def csvFieldnames : List String :=
  ["api_call_time", "lastupdated", "status_timestamp", "zone_number",
   "status_description", "kerbsideid", "location_lon", "location_lat"]

/-- Body of `flatten_record` once the nested `fields` dict has been
extracted: copies six scalar fields verbatim (empty string when absent)
and splits a dict-shaped `location` into `lon` / `lat`. -/
def flattenFields (fields : List (String × JValue)) (api_call_time : String) : FlatRecord :=
  let location := dictGet fields "location" (.obj [])
  let lonlat : JValue × JValue :=
    match location with
    | .obj l => (dictGet l "lon" (.str ""), dictGet l "lat" (.str ""))
    | _ => (.str "", .str "")
  { api_call_time := .str api_call_time
    lastupdated := dictGet fields "lastupdated" (.str "")
    status_timestamp := dictGet fields "status_timestamp" (.str "")
    zone_number := dictGet fields "zone_number" (.str "")
    status_description := dictGet fields "status_description" (.str "")
    kerbsideid := dictGet fields "kerbsideid" (.str "")
    location_lon := lonlat.1
    location_lat := lonlat.2 }

/-- `flatten_record(record, api_call_time)`: extracts `record.fields`
two levels deep (missing levels default to an empty dict) and flattens.
Raises AttributeError when an intermediate level is present but not a
dict, exactly where Python would call `.get` on it. -/
def flatten_record (record : RawRecord) (api_call_time : String) : Except String FlatRecord :=
  match asDict (dictGet record "record" (.obj [])) with
  | .error e => .error e
  | .ok inner_record =>
    match asDict (dictGet inner_record "fields" (.obj [])) with
    | .error e => .error e
    | .ok fields => .ok (flattenFields fields api_call_time)

/-- The two one-shot debug-print flags that Python attaches to the
`flatten_record` function object. -/
structure DebugFlags where
  printed_debug : Bool
  printed_flattened : Bool
deriving DecidableEq

/-- `flatten_record` with its print side effects made explicit: takes the
current flag state, returns the result together with the updated flags
and the debug lines printed (modelled abstractly by their headers). -/
def flatten_record_impl (st : DebugFlags) (record : RawRecord) (api_call_time : String) :
    Except String FlatRecord × DebugFlags × List String :=
  match asDict (dictGet record "record" (.obj [])) with
  | .error e => (.error e, st, [])
  | .ok inner_record =>
    match asDict (dictGet inner_record "fields" (.obj [])) with
    | .error e => (.error e, st, [])
    | .ok fields =>
      let step1 : DebugFlags × List String :=
        if st.printed_debug then (st, [])
        else ({ st with printed_debug := true }, ["DEBUG: FLATTENING RECORD"])
      let flattened := flattenFields fields api_call_time
      let step2 : DebugFlags × List String :=
        if step1.1.printed_flattened then (step1.1, [])
        else ({ step1.1 with printed_flattened := true }, ["DEBUG: FLATTENED RESULT"])
      (.ok flattened, step2.1, step1.2 ++ step2.2)

/-- Status extraction used by the occupancy summary loops in `run_once`
and `run_once_write_jsonl`. -/
def statusOf (record : RawRecord) : Except String JValue :=
  match asDict (dictGet record "record" (.obj [])) with
  | .error e => .error e
  | .ok inner_record =>
    match asDict (dictGet inner_record "fields" (.obj [])) with
    | .error e => .error e
    | .ok fields => .ok (dictGet fields "status_description" (.str ""))

/-- Whether status extraction succeeds on a record (the record is nested
dict-shaped as the RawRecord data model requires). -/
def statusOk (record : RawRecord) : Bool :=
  match statusOf record with
  | .ok _ => true
  | .error _ => false

/-- Whether a record's extracted status equals exactly the given string
(Python `==` against a string literal holds only for an equal string). -/
def hasStatus (v : String) (record : RawRecord) : Bool :=
  match statusOf record with
  | .ok (.str s) => s = v
  | _ => false

/-- The occupancy summary loop of `run_once` / `run_once_write_jsonl`:
walks the fetched records in order, incrementing `occupied` on status
exactly "Present" and `unoccupied` on exactly "Unoccupied". -/
def countOccupancy : List RawRecord → Except String (Nat × Nat)
  | [] => .ok (0, 0)
  | r :: rs =>
    match statusOf r with
    | .error e => .error e
    | .ok s =>
      match countOccupancy rs with
      | .error e => .error e
      | .ok (occupied, unoccupied) =>
        match s with
        | .str t =>
          if t = "Present" then .ok (occupied + 1, unoccupied)
          else if t = "Unoccupied" then .ok (occupied, unoccupied + 1)
          else .ok (occupied, unoccupied)
        | _ => .ok (occupied, unoccupied)

/-- An HTTP response to one page request, as the fetch loop sees it:
the status code and the `records` array of the JSON body
(`data.get('records', [])`). -/
structure ApiResponse where
  status_code : Nat
  records : List RawRecord

/-- The `while True` pagination loop of `get_all_parking_data`, with the
environment (the API) passed as a function from offset to response and
the unbounded loop given explicit fuel.  Alongside the accumulated
records it returns the list of offsets actually requested, in order.
One iteration: request the page at `offset`; on non-200 stop; on an
empty page stop without appending; otherwise append, and stop if the
page was shorter than the limit of 100, else continue at
`offset + 100`. -/
def fetchLoop (api : Nat → ApiResponse) : Nat → Nat → List RawRecord → List Nat →
    List RawRecord × List Nat
  | 0, _, all_data, reqs => (all_data, reqs)
  | fuel + 1, offset, all_data, reqs =>
    let resp := api offset
    let reqs2 := reqs ++ [offset]
    if resp.status_code = 200 then
      let batch_data := resp.records
      if batch_data.isEmpty then (all_data, reqs2)
      else if batch_data.length < 100 then (all_data ++ batch_data, reqs2)
      else fetchLoop api fuel (offset + 100) (all_data ++ batch_data) reqs2
    else (all_data, reqs2)

/-- `get_all_parking_data()`: run the pagination loop from offset 0 with
an empty accumulator. -/
def get_all_parking_data (api : Nat → ApiResponse) (fuel : Nat) : List RawRecord × List Nat :=
  fetchLoop api fuel 0 [] []

/-- A filesystem: association list from path to file content. -/
def fsGet {α : Type} : List (String × α) → String → Option α
  | [], _ => none
  | kv :: rest, p => if kv.1 = p then some kv.2 else fsGet rest p

/-- Replace the content stored at a path, or create the file. -/
def fsSet {α : Type} : List (String × α) → String → α → List (String × α)
  | [], p, v => [(p, v)]
  | kv :: rest, p, v => if kv.1 = p then (p, v) :: rest else kv :: fsSet rest p v

/-- A CSV filesystem: each file is a list of rows, a row being the list
of its cell values in column order. -/
abbrev CsvFS := List (String × List (List JValue))

/-- The fixed CSV output path. -/
def CSV_FILE : String := "parking_sensors_data.csv"

/-- The header row the CSV writer emits for a new file. -/
def csvHeader : List JValue := csvFieldnames.map JValue.str

/-- One CSV data row: the eight flattened values in the canonical
fieldname order. -/
def csvRow (fr : FlatRecord) : List JValue :=
  [fr.api_call_time, fr.lastupdated, fr.status_timestamp, fr.zone_number,
   fr.status_description, fr.kerbsideid, fr.location_lon, fr.location_lat]

/-- The list comprehension
`[flatten_record(record, api_call_time) for record in data]`;
the first AttributeError propagates. -/
def flattenAll (data : List RawRecord) (api_call_time : String) :
    Except String (List FlatRecord) :=
  match data with
  | [] => .ok []
  | record :: rest =>
    match flatten_record record api_call_time with
    | .error e => .error e
    | .ok fr =>
      match flattenAll rest api_call_time with
      | .error e => .error e
      | .ok frs => .ok (fr :: frs)

/-- `save_to_csv(data, api_call_time)`: early return when `data` is
empty; otherwise flatten every raw record, open the fixed path in append
mode, write the header first iff the file did not exist, then one row
per flattened record.  A flattening AttributeError propagates. -/
def save_to_csv (fs : CsvFS) (data : List RawRecord) (api_call_time : String) :
    Except String CsvFS :=
  if data.isEmpty then .ok fs
  else
    match flattenAll data api_call_time with
    | .error e => .error e
    | .ok flattened_data =>
      match fsGet fs CSV_FILE with
      | none => .ok (fsSet fs CSV_FILE (csvHeader :: flattened_data.map csvRow))
      | some rows => .ok (fsSet fs CSV_FILE (rows ++ flattened_data.map csvRow))

/-- A JSONL filesystem: each `.jsonl.gz` file is its list of lines, a
line being the JSON object it decodes to (gzip and JSON text encoding
are transparent). -/
abbrev JsonlFS := List (String × List FlatRecord)

/-- Naive datetime fields as Python's `datetime` carries them. -/
structure PDateTime where
  year : Nat
  month : Nat
  day : Nat
  hour : Nat
  minute : Nat
  second : Nat
deriving DecidableEq

/-- Gregorian leap-year rule, as `datetime` validates days. -/
def isLeap (y : Nat) : Bool :=
  (y % 4 = 0 && y % 100 ≠ 0) || y % 400 = 0

/-- Days in a month, for `strptime` range validation. -/
def daysInMonth (y m : Nat) : Nat :=
  if m = 2 then (if isLeap y then 29 else 28)
  else if m = 4 ∨ m = 6 ∨ m = 9 ∨ m = 11 then 30
  else 31

/-- One decimal digit, or `none` for any other character. -/
def charDigit (c : Char) : Option Nat :=
  if c.isDigit then some (c.toNat - 48) else none

/-- Accumulate decimal digits; fails on the first non-digit. -/
def parseNatAux : List Char → Nat → Option Nat
  | [], acc => some acc
  | c :: cs, acc =>
    match charDigit c with
    | some d => parseNatAux cs (acc * 10 + d)
    | none => none

/-- Read a non-empty all-digit string as a natural number. -/
def strToNat (s : String) : Option Nat :=
  match s.data with
  | [] => none
  | cs => parseNatAux cs 0

/-- Split a character list at every occurrence of `c`. -/
def splitChAux (c : Char) : List Char → List Char → List (List Char)
  | [], acc => [acc.reverse]
  | x :: xs, acc =>
    if x = c then acc.reverse :: splitChAux c xs []
    else splitChAux c xs (x :: acc)

/-- Split a string at every occurrence of a separator character
(the separators of the fixed `strptime` format are single characters). -/
def splitCh (c : Char) (s : String) : List String :=
  (splitChAux c s.data []).map String.mk

/-- One numeric `strptime` field: up to `maxLen` digits. -/
def natField (s : String) (maxLen : Nat) : Option Nat :=
  if s.length = 0 ∨ maxLen < s.length then none else strToNat s

/-- `datetime.strptime(s, '%Y-%m-%d %H:%M:%S')`: split on the literal
separators, read the six numeric fields, and validate ranges as the
`datetime` constructor does; `none` models the ValueError. -/
def parseDT (s : String) : Option PDateTime :=
  match splitCh ' ' s with
  | [d, t] =>
    match splitCh '-' d, splitCh ':' t with
    | [ys, mos, das], [hs, mis, ss] =>
      match natField ys 4, natField mos 2, natField das 2,
            natField hs 2, natField mis 2, natField ss 2 with
      | some y, some mo, some da, some h, some mi, some se =>
        if 1 ≤ y ∧ 1 ≤ mo ∧ mo ≤ 12 ∧ 1 ≤ da ∧ da ≤ daysInMonth y mo ∧
           h ≤ 23 ∧ mi ≤ 59 ∧ se ≤ 59
        then some ⟨y, mo, da, h, mi, se⟩ else none
      | _, _, _, _, _, _ => none
    | _, _ => none
  | _ => none

/-- Zero-pad to two digits (`strftime` `%m`, `%d`, `%H`, `%M`). -/
def pad2 (n : Nat) : String :=
  if n < 10 then "0" ++ toString n else toString n

/-- Zero-pad to four digits (`strftime` `%Y` for common-era years). -/
def pad4 (n : Nat) : String :=
  if n < 10 then "000" ++ toString n
  else if n < 100 then "00" ++ toString n
  else if n < 1000 then "0" ++ toString n
  else toString n

/-- The snapshot path `data/raw/<YYYY-MM-DD>/<HHMM>.jsonl.gz` derived
from a parsed call time. -/
def jsonlPath (dt : PDateTime) : String :=
  "data/raw/" ++ pad4 dt.year ++ "-" ++ pad2 dt.month ++ "-" ++ pad2 dt.day ++
    "/" ++ pad2 dt.hour ++ pad2 dt.minute ++ ".jsonl.gz"

/-- `save_to_jsonl_gz(flattened_records, dt_utc)`: parse the call time
(ValueError propagates), derive the dated path, create directories as
needed, open the gzip file in text-append mode — creating it when absent
— and write one JSON line per record.  Returns the new filesystem and
the path. -/
def save_to_jsonl_gz (fs : JsonlFS) (flattened_records : List FlatRecord) (dt_utc : String) :
    Except String (JsonlFS × String) :=
  match parseDT dt_utc with
  | none => .error "ValueError"
  | some dt =>
    let out_path := jsonlPath dt
    let prev := (fsGet fs out_path).getD []
    .ok (fsSet fs out_path (prev ++ flattened_records), out_path)

/-- `datetime.replace(minute=m)`: raises ValueError unless
`0 <= m <= 59`. -/
def replaceMinute (d : PDateTime) (m : Nat) : Except String PDateTime :=
  if m ≤ 59 then .ok { d with minute := m } else .error "ValueError"

/-- The next-run-time computation of `run_continuously`: zero the
seconds, then `replace(minute=minute + interval_minutes)` — field-wise
addition with no carry into the hour. -/
def computeNextRun (now : PDateTime) (interval_minutes : Nat) : Except String PDateTime :=
  let next_run : PDateTime := { now with second := 0 }
  replaceMinute next_run (next_run.minute + interval_minutes)

/-! ### Helper lemmas -/

theorem fsGet_fsSet_same {α : Type} (fs : List (String × α)) (p : String) (v : α) :
    fsGet (fsSet fs p v) p = some v := by
  induction fs with
  | nil => simp [fsGet, fsSet]
  | cons kv rest ih =>
    by_cases h : kv.1 = p
    · simp [fsSet, h, fsGet]
    · simp [fsSet, h, fsGet, ih]

theorem fsGet_fsSet_other {α : Type} (fs : List (String × α)) (p q : String) (v : α)
    (hq : q ≠ p) : fsGet (fsSet fs p v) q = fsGet fs q := by
  induction fs with
  | nil => simp [fsGet, fsSet, Ne.symm hq]
  | cons kv rest ih =>
    by_cases h : kv.1 = p
    · simp [fsSet, h, fsGet, Ne.symm hq]
    · simp [fsSet, h, fsGet, ih]

theorem flattenAll_length (data : List RawRecord) (t : String) (flat : List FlatRecord)
    (h : flattenAll data t = .ok flat) : flat.length = data.length := by
  induction data generalizing flat with
  | nil =>
    simp [flattenAll] at h
    simp [← h]
  | cons r rest ih =>
    unfold flattenAll at h
    cases hr : flatten_record r t with
    | error e => rw [hr] at h; cases h
    | ok fr =>
      rw [hr] at h
      cases hrest : flattenAll rest t with
      | error e => rw [hrest] at h; cases h
      | ok frs =>
        rw [hrest] at h
        cases h
        simp [ih frs hrest]

/-- Whether a `JValue` is a dict. -/
def JValue.isObj : JValue → Bool
  | .obj _ => true
  | _ => false

/-- The shape of a flattened record relative to the source `fields`
dict: the eight canonical keys in order; the call time injected as text;
each scalar field copied verbatim when present and defaulting to the
empty string when absent; `location` split into `lon` / `lat` when it is
a dict and defaulting both to the empty string otherwise. -/
def FlattenShapeOK (fields : List (String × JValue)) (t : String) (fr : FlatRecord) : Prop :=
  fr.toPairs.map Prod.fst = csvFieldnames ∧
  fr.api_call_time = .str t ∧
  (pyGet fields "lastupdated" = none → fr.lastupdated = .str "") ∧
  (∀ v, pyGet fields "lastupdated" = some v → fr.lastupdated = v) ∧
  (pyGet fields "status_timestamp" = none → fr.status_timestamp = .str "") ∧
  (∀ v, pyGet fields "status_timestamp" = some v → fr.status_timestamp = v) ∧
  (pyGet fields "zone_number" = none → fr.zone_number = .str "") ∧
  (∀ v, pyGet fields "zone_number" = some v → fr.zone_number = v) ∧
  (pyGet fields "status_description" = none → fr.status_description = .str "") ∧
  (∀ v, pyGet fields "status_description" = some v → fr.status_description = v) ∧
  (pyGet fields "kerbsideid" = none → fr.kerbsideid = .str "") ∧
  (∀ v, pyGet fields "kerbsideid" = some v → fr.kerbsideid = v) ∧
  (∀ l, dictGet fields "location" (.obj []) = .obj l →
    fr.location_lon = dictGet l "lon" (.str "") ∧
    fr.location_lat = dictGet l "lat" (.str "")) ∧
  ((dictGet fields "location" (.obj [])).isObj = false →
    fr.location_lon = .str "" ∧ fr.location_lat = .str "")

/-! ### Concrete sample data used by witnesses and counterexamples -/

/-- A raw record whose `zone_number` is a JSON number, as the API
delivers it. -/
def recNumericZone : RawRecord :=
  [("record", .obj [("fields", .obj [("zone_number", .int 7468)])])]

/-- The `fields` dict of `recLoc`. -/
def recLocFields : List (String × JValue) :=
  [("status_description", .str "Present"),
   ("location", .obj [("lon", .str "144.966"), ("lat", .str "-37.810")])]

/-- The inner `record` dict of `recLoc`. -/
def recLocInner : List (String × JValue) :=
  [("fields", .obj recLocFields)]

/-- A well-formed raw record with a dict-shaped location. -/
def recLoc : RawRecord :=
  [("record", .obj recLocInner)]

/-- A raw record whose nested fields carry only the given status. -/
def mkStatusRec (s : String) : RawRecord :=
  [("record", .obj [("fields", .obj [("status_description", .str s)])])]

/-- The spec's occupancy example: statuses Present, Present, Unoccupied,
Other. -/
def statusListEx : List RawRecord :=
  [mkStatusRec "Present", mkStatusRec "Present",
   mkStatusRec "Unoccupied", mkStatusRec "Other"]

/-- The spec's example call time, parsed. -/
def dtEx : PDateTime := ⟨2024, 3, 1, 5, 7, 0⟩

/-! ### Claim theorems -/

/-- C2: `flatten_record` is deterministic — its record result depends
only on the raw record and the call-time string, not on the one-shot
debug-print flag state, and agrees with the pure `flatten_record`;
hence two calls on identical inputs return identical outputs no matter
how many calls preceded them. -/
theorem flatten_record_state_independent (st1 st2 : DebugFlags) (record : RawRecord)
    (t : String) :
    (flatten_record_impl st1 record t).1 = (flatten_record_impl st2 record t).1 ∧
    (flatten_record_impl st1 record t).1 = flatten_record record t := by
  cases h1 : asDict (dictGet record "record" (.obj [])) with
  | error e => simp [flatten_record_impl, flatten_record, h1]
  | ok inner_record =>
    cases h2 : asDict (dictGet inner_record "fields" (.obj [])) with
    | error e => simp [flatten_record_impl, flatten_record, h1, h2]
    | ok fields => simp [flatten_record_impl, flatten_record, h1, h2]

/-- C3 (amended): whenever `flatten_record` returns a record, that
record has exactly the eight canonical keys in order, the call time is
injected as text, each field absent from the source defaults to the
empty string, and each present field is copied verbatim — preserving its
source type rather than being converted to text. -/
theorem flatten_record_shape (record : RawRecord) (t : String)
    (inner_record fields : List (String × JValue)) (fr : FlatRecord)
    (h1 : asDict (dictGet record "record" (.obj [])) = .ok inner_record)
    (h2 : asDict (dictGet inner_record "fields" (.obj [])) = .ok fields)
    (h3 : flatten_record record t = .ok fr) :
    FlattenShapeOK fields t fr := by
  unfold flatten_record at h3
  rw [h1] at h3
  simp [h2] at h3
  subst h3
  unfold FlattenShapeOK flattenFields
  refine ⟨rfl, rfl, ?_, ?_, ?_, ?_, ?_, ?_, ?_, ?_, ?_, ?_, ?_, ?_⟩
  · intro h; simp [dictGet, h]
  · intro v h; simp [dictGet, h]
  · intro h; simp [dictGet, h]
  · intro v h; simp [dictGet, h]
  · intro h; simp [dictGet, h]
  · intro v h; simp [dictGet, h]
  · intro h; simp [dictGet, h]
  · intro v h; simp [dictGet, h]
  · intro h; simp [dictGet, h]
  · intro v h; simp [dictGet, h]
  · intro l h
    simp [dictGet] at h
    simp [dictGet, h]
  · intro h
    simp [dictGet] at h
    cases hl : (pyGet fields "location").getD (JValue.obj []) <;>
      simp [dictGet, hl, JValue.isObj] at h ⊢

/-- C3 counterexample: on a record whose `zone_number` is the JSON
number 7468, `flatten_record` stores the number itself, not text — the
output value is not a string. -/
theorem flatten_record_not_all_text :
    (flatten_record recNumericZone "2024-03-01 05:07:00").map (fun fr => fr.zone_number) =
      .ok (.int 7468) ∧
    (flatten_record recNumericZone "2024-03-01 05:07:00").map
        (fun fr => fr.zone_number.isStr) = .ok false :=
  ⟨rfl, rfl⟩

/-- C3 witness: the amended shape holds on a concrete well-formed record
with a dict-shaped location. -/
theorem flatten_record_shape_witness :
    asDict (dictGet recLoc "record" (.obj [])) = .ok recLocInner ∧
    asDict (dictGet recLocInner "fields" (.obj [])) = .ok recLocFields ∧
    flatten_record recLoc "2024-03-01 05:07:00" =
      .ok (flattenFields recLocFields "2024-03-01 05:07:00") ∧
    FlattenShapeOK recLocFields "2024-03-01 05:07:00"
      (flattenFields recLocFields "2024-03-01 05:07:00") :=
  ⟨rfl, rfl, rfl,
    flatten_record_shape recLoc "2024-03-01 05:07:00" recLocInner recLocFields
      (flattenFields recLocFields "2024-03-01 05:07:00") rfl rfl rfl⟩

/-- C6 (amended): on zero records the CSV sink returns before touching
the file, leaving the whole filesystem (any existing CSV included)
unchanged; the compressed sink, by contrast, still opens its snapshot
path in append mode — afterwards the file exists (with its lines
unchanged, so empty when it was absent), every other file untouched. -/
theorem sinks_zero_records (fs : CsvFS) (t : String) (gfs : JsonlFS) (s : String)
    (dt : PDateTime) (h : parseDT s = some dt) :
    save_to_csv fs [] t = .ok fs ∧
    ∃ gfs2, save_to_jsonl_gz gfs [] s = .ok (gfs2, jsonlPath dt) ∧
      fsGet gfs2 (jsonlPath dt) = some ((fsGet gfs (jsonlPath dt)).getD []) ∧
      ∀ q, q ≠ jsonlPath dt → fsGet gfs2 q = fsGet gfs q := by
  refine ⟨rfl, fsSet gfs (jsonlPath dt) ((fsGet gfs (jsonlPath dt)).getD []), ?_, ?_, ?_⟩
  · unfold save_to_jsonl_gz
    rw [h]
    simp
  · exact fsGet_fsSet_same gfs (jsonlPath dt) _
  · intro q hq
    exact fsGet_fsSet_other gfs (jsonlPath dt) q _ hq

/-- C6 witness: on an empty filesystem, zero records leave the CSV
filesystem empty while the compressed sink creates the (empty) snapshot
file at the example path. -/
theorem sinks_zero_records_witness :
    parseDT "2024-03-01 05:07:00" = some dtEx ∧
    fsGet ([] : JsonlFS) (jsonlPath dtEx) = none ∧
    (save_to_csv [] [] "2024-03-01 05:07:00" = .ok [] ∧
     ∃ gfs2, save_to_jsonl_gz [] [] "2024-03-01 05:07:00" = .ok (gfs2, jsonlPath dtEx) ∧
       fsGet gfs2 (jsonlPath dtEx) = some ((fsGet ([] : JsonlFS) (jsonlPath dtEx)).getD []) ∧
       ∀ q, q ≠ jsonlPath dtEx → fsGet gfs2 q = fsGet ([] : JsonlFS) q) :=
  ⟨rfl, rfl, sinks_zero_records [] "2024-03-01 05:07:00" [] "2024-03-01 05:07:00" dtEx rfl⟩

/-- C6 counterexample: the compressed sink has no zero-record guard —
called with an empty record list on an empty filesystem it still
creates the (empty) snapshot file. -/
theorem save_to_jsonl_gz_empty_creates_file :
    fsGet ([] : JsonlFS) "data/raw/2024-03-01/0507.jsonl.gz" = none ∧
    save_to_jsonl_gz [] [] "2024-03-01 05:07:00" =
      .ok ([("data/raw/2024-03-01/0507.jsonl.gz", [])],
        "data/raw/2024-03-01/0507.jsonl.gz") :=
  ⟨rfl, rfl⟩

/-- C8: with the default 60-minute interval, the next-run-time
computation of `run_continuously` always raises ValueError
(`minute + 60` can never be a valid minute), so the loop terminates by
an uncaught exception after its first iteration instead of running until
interrupted. -/
theorem computeNextRun_default_interval_invalid (now : PDateTime) :
    computeNextRun now 60 = .error "ValueError" := by
  unfold computeNextRun replaceMinute
  simp

/-- C7: when every fetched record is nested dict-shaped (as the
RawRecord data model requires), the occupancy summary succeeds and
reports exactly the number of records whose status is exactly "Present"
as occupied and exactly "Unoccupied" as unoccupied; records with any
other or missing status land in neither count. -/
theorem countOccupancy_counts (data : List RawRecord)
    (h : ∀ r ∈ data, statusOk r = true) :
    countOccupancy data =
      .ok (data.countP (hasStatus "Present"), data.countP (hasStatus "Unoccupied")) := by
  induction data with
  | nil => simp [countOccupancy]
  | cons r rs ih =>
    have hr : statusOk r = true := h r (by simp)
    have hrs : ∀ x ∈ rs, statusOk x = true := fun x hx => h x (by simp [hx])
    unfold statusOk at hr
    unfold countOccupancy
    rw [ih hrs]
    cases hs : statusOf r with
    | error e => rw [hs] at hr; simp at hr
    | ok s =>
      cases s with
      | str tstr =>
        by_cases hp : tstr = "Present"
        · simp [List.countP_cons, hasStatus, hs, hp]
        · by_cases hu : tstr = "Unoccupied"
          · simp [List.countP_cons, hasStatus, hs, hp, hu]
          · simp [List.countP_cons, hasStatus, hs, hp, hu]
      | null => simp [List.countP_cons, hasStatus, hs]
      | bool b => simp [List.countP_cons, hasStatus, hs]
      | int n => simp [List.countP_cons, hasStatus, hs]
      | arr xs => simp [List.countP_cons, hasStatus, hs]
      | obj kvs => simp [List.countP_cons, hasStatus, hs]

/-- C7 witness: on the spec's example statuses Present, Present,
Unoccupied, Other the summary reports occupied 2, unoccupied 1. -/
theorem countOccupancy_counts_witness :
    (∀ r ∈ statusListEx, statusOk r = true) ∧
    countOccupancy statusListEx = .ok (2, 1) :=
  ⟨by decide, (countOccupancy_counts statusListEx (by decide)).trans rfl⟩

/-- C10: the two occupancy counters are disjoint — each record
increments at most one — so whenever the summary succeeds, occupied plus
unoccupied is at most the number of records (both being naturals, they
are non-negative). -/
theorem countOccupancy_bound (data : List RawRecord) (o u : Nat)
    (h : countOccupancy data = .ok (o, u)) : o + u ≤ data.length := by
  induction data generalizing o u with
  | nil =>
    unfold countOccupancy at h
    simp only [Except.ok.injEq, Prod.mk.injEq] at h
    omega
  | cons r rs ih =>
    unfold countOccupancy at h
    cases hs : statusOf r with
    | error e => rw [hs] at h; cases h
    | ok s =>
      rw [hs] at h
      cases hc : countOccupancy rs with
      | error e => rw [hc] at h; cases h
      | ok pr =>
        rw [hc] at h
        obtain ⟨o2, u2⟩ := pr
        have hb := ih o2 u2 hc
        cases s with
        | str tstr =>
          by_cases hp : tstr = "Present"
          · simp [hp, Prod.mk.injEq] at h
            simp [List.length_cons]
            omega
          · by_cases hu : tstr = "Unoccupied"
            · simp [hp, hu, Prod.mk.injEq] at h
              simp [List.length_cons]
              omega
            · simp [hp, hu, Prod.mk.injEq] at h
              simp [List.length_cons]
              omega
        | null => simp [Prod.mk.injEq] at h; simp [List.length_cons]; omega
        | bool b => simp [Prod.mk.injEq] at h; simp [List.length_cons]; omega
        | int n => simp [Prod.mk.injEq] at h; simp [List.length_cons]; omega
        | arr xs => simp [Prod.mk.injEq] at h; simp [List.length_cons]; omega
        | obj kvs => simp [Prod.mk.injEq] at h; simp [List.length_cons]; omega

/-- C4: for every parseable call time, the compressed sink succeeds,
writes to the path derived from the call time, and the file then holds
exactly the previous lines followed by one line per record, the i-th new
line being the i-th flattened record; every other file is untouched. -/
theorem save_to_jsonl_gz_appends (fs : JsonlFS) (recs : List FlatRecord) (s : String)
    (dt : PDateTime) (h : parseDT s = some dt) :
    ∃ fs2, save_to_jsonl_gz fs recs s = .ok (fs2, jsonlPath dt) ∧
      fsGet fs2 (jsonlPath dt) = some ((fsGet fs (jsonlPath dt)).getD [] ++ recs) ∧
      ((fsGet fs (jsonlPath dt)).getD [] ++ recs).length =
        ((fsGet fs (jsonlPath dt)).getD []).length + recs.length ∧
      ∀ q, q ≠ jsonlPath dt → fsGet fs2 q = fsGet fs q := by
  refine ⟨fsSet fs (jsonlPath dt) ((fsGet fs (jsonlPath dt)).getD [] ++ recs), ?_, ?_, ?_, ?_⟩
  · unfold save_to_jsonl_gz
    rw [h]
  · exact fsGet_fsSet_same fs (jsonlPath dt) _
  · simp
  · intro q hq
    exact fsGet_fsSet_other fs (jsonlPath dt) q _ hq

/-- Three sample flattened records for the compressed-sink example. -/
def flatRecsEx : List FlatRecord :=
  [flattenFields [("kerbsideid", .int 1)] "2024-03-01 05:07:00",
   flattenFields [("kerbsideid", .int 2)] "2024-03-01 05:07:00",
   flattenFields [("kerbsideid", .int 3)] "2024-03-01 05:07:00"]

/-- C4 witness: call time `2024-03-01 05:07:00` with three records lands
in `data/raw/2024-03-01/0507.jsonl.gz` with exactly three lines. -/
theorem save_to_jsonl_gz_appends_witness :
    parseDT "2024-03-01 05:07:00" = some dtEx ∧
    jsonlPath dtEx = "data/raw/2024-03-01/0507.jsonl.gz" ∧
    (∃ fs2, save_to_jsonl_gz [] flatRecsEx "2024-03-01 05:07:00" = .ok (fs2, jsonlPath dtEx) ∧
      fsGet fs2 (jsonlPath dtEx) =
        some ((fsGet ([] : JsonlFS) (jsonlPath dtEx)).getD [] ++ flatRecsEx) ∧
      ((fsGet ([] : JsonlFS) (jsonlPath dtEx)).getD [] ++ flatRecsEx).length =
        ((fsGet ([] : JsonlFS) (jsonlPath dtEx)).getD []).length + flatRecsEx.length ∧
      ∀ q, q ≠ jsonlPath dtEx → fsGet fs2 q = fsGet ([] : JsonlFS) q) :=
  ⟨rfl, rfl, save_to_jsonl_gz_appends [] flatRecsEx "2024-03-01 05:07:00" dtEx rfl⟩

/-- C5: starting from a filesystem without the CSV file, a first call
with nonempty data creates the file with exactly one header row in the
canonical order followed by one row per record; a second call appends
exactly its own rows, with no further header. -/
theorem save_to_csv_header_then_append (fs : CsvFS) (data1 data2 : List RawRecord)
    (t1 t2 : String) (flat1 flat2 : List FlatRecord)
    (hnone : fsGet fs CSV_FILE = none)
    (h1 : data1 ≠ []) (hf1 : flattenAll data1 t1 = .ok flat1)
    (h2 : data2 ≠ []) (hf2 : flattenAll data2 t2 = .ok flat2) :
    ∃ fs2 fs3,
      save_to_csv fs data1 t1 = .ok fs2 ∧
      fsGet fs2 CSV_FILE = some (csvHeader :: flat1.map csvRow) ∧
      (csvHeader :: flat1.map csvRow).length = 1 + data1.length ∧
      save_to_csv fs2 data2 t2 = .ok fs3 ∧
      fsGet fs3 CSV_FILE = some ((csvHeader :: flat1.map csvRow) ++ flat2.map csvRow) ∧
      (flat2.map csvRow).length = data2.length := by
  have hne1 : data1.isEmpty = false := by
    cases data1 with
    | nil => exact absurd rfl h1
    | cons a b => rfl
  have hne2 : data2.isEmpty = false := by
    cases data2 with
    | nil => exact absurd rfl h2
    | cons a b => rfl
  refine ⟨fsSet fs CSV_FILE (csvHeader :: flat1.map csvRow),
    fsSet (fsSet fs CSV_FILE (csvHeader :: flat1.map csvRow)) CSV_FILE
      ((csvHeader :: flat1.map csvRow) ++ flat2.map csvRow), ?_, ?_, ?_, ?_, ?_, ?_⟩
  · unfold save_to_csv
    simp [hne1, hf1, hnone]
  · exact fsGet_fsSet_same fs CSV_FILE _
  · simp [flattenAll_length data1 t1 flat1 hf1]
    omega
  · unfold save_to_csv
    simp [hne2, hf2, fsGet_fsSet_same fs CSV_FILE _]
  · exact fsGet_fsSet_same _ CSV_FILE _
  · simp [flattenAll_length data2 t2 flat2 hf2]

/-- First-call data for the CSV example. -/
def csvData1 : List RawRecord := [mkStatusRec "Present"]

/-- Second-call data for the CSV example. -/
def csvData2 : List RawRecord := [mkStatusRec "Unoccupied", mkStatusRec "Other"]

/-- The flattened first-call data. -/
def csvFlat1 : List FlatRecord :=
  [flattenFields [("status_description", .str "Present")] "2024-03-01 05:07:00"]

/-- The flattened second-call data. -/
def csvFlat2 : List FlatRecord :=
  [flattenFields [("status_description", .str "Unoccupied")] "2024-03-01 06:07:00",
   flattenFields [("status_description", .str "Other")] "2024-03-01 06:07:00"]

/-- C5 witness: one record then two records — header plus one row after
the first call, two more rows and no second header after the second. -/
theorem save_to_csv_header_then_append_witness :
    fsGet ([] : CsvFS) CSV_FILE = none ∧
    csvData1 ≠ [] ∧ flattenAll csvData1 "2024-03-01 05:07:00" = .ok csvFlat1 ∧
    csvData2 ≠ [] ∧ flattenAll csvData2 "2024-03-01 06:07:00" = .ok csvFlat2 ∧
    (∃ fs2 fs3,
      save_to_csv [] csvData1 "2024-03-01 05:07:00" = .ok fs2 ∧
      fsGet fs2 CSV_FILE = some (csvHeader :: csvFlat1.map csvRow) ∧
      (csvHeader :: csvFlat1.map csvRow).length = 1 + csvData1.length ∧
      save_to_csv fs2 csvData2 "2024-03-01 06:07:00" = .ok fs3 ∧
      fsGet fs3 CSV_FILE = some ((csvHeader :: csvFlat1.map csvRow) ++ csvFlat2.map csvRow) ∧
      (csvFlat2.map csvRow).length = csvData2.length) :=
  ⟨rfl, by simp [csvData1], rfl, by simp [csvData2], rfl,
    save_to_csv_header_then_append [] csvData1 csvData2 "2024-03-01 05:07:00"
      "2024-03-01 06:07:00" csvFlat1 csvFlat2 rfl (by simp [csvData1]) rfl
      (by simp [csvData2]) rfl⟩

/-- C10 witness: on the example statuses the bound 2 + 1 ≤ 4 holds. -/
theorem countOccupancy_bound_witness :
    countOccupancy statusListEx = .ok (2, 1) ∧ 2 + 1 ≤ statusListEx.length :=
  ⟨rfl, countOccupancy_bound statusListEx 2 1 rfl⟩

/-! ### Fetch-loop lemmas -/

theorem fetchLoop_step_full (api : Nat → ApiResponse) (fuel offset : Nat)
    (acc : List RawRecord) (reqs : List Nat)
    (h200 : (api offset).status_code = 200) (hlen : (api offset).records.length = 100) :
    fetchLoop api (fuel + 1) offset acc reqs =
      fetchLoop api fuel (offset + 100) (acc ++ (api offset).records) (reqs ++ [offset]) := by
  have hne : (api offset).records.isEmpty = false := by
    cases hrec : (api offset).records with
    | nil => rw [hrec] at hlen; simp at hlen
    | cons a b => rfl
  simp only [fetchLoop]
  simp [h200, hne, hlen]

theorem fetchLoop_advance (api : Nat → ApiResponse) (k : Nat) :
    ∀ (fuel offset : Nat) (acc : List RawRecord) (reqs : List Nat), k ≤ fuel →
    (∀ j, j < k → (api (offset + 100 * j)).status_code = 200 ∧
      (api (offset + 100 * j)).records.length = 100) →
    fetchLoop api fuel offset acc reqs =
      fetchLoop api (fuel - k) (offset + 100 * k)
        (acc ++ ((List.range k).map (fun j => (api (offset + 100 * j)).records)).join)
        (reqs ++ (List.range k).map (fun j => offset + 100 * j)) := by
  induction k with
  | zero => intro fuel offset acc reqs _ _; simp
  | succ k ih =>
    intro fuel offset acc reqs hfuel hfull
    cases fuel with
    | zero => omega
    | succ f =>
      have h0 := hfull 0 (Nat.succ_pos k)
      simp only [Nat.mul_zero, Nat.add_zero] at h0
      have hfull2 : ∀ j, j < k → (api (offset + 100 + 100 * j)).status_code = 200 ∧
          (api (offset + 100 + 100 * j)).records.length = 100 := by
        intro j hj
        have e : offset + 100 + 100 * j = offset + 100 * (j + 1) := by ring
        rw [e]
        exact hfull (j + 1) (by omega)
      rw [fetchLoop_step_full api f offset acc reqs h0.1 h0.2,
        ih f (offset + 100) (acc ++ (api offset).records) (reqs ++ [offset])
          (by omega) hfull2]
      have efun : (fun j => (api (offset + 100 + 100 * j)).records) =
          (fun j => (api (offset + 100 * (j + 1))).records) := by
        funext j
        congr 2
        ring
      have efun2 : (fun j => offset + 100 + 100 * j) =
          (fun j => offset + 100 * (j + 1)) := by
        funext j
        ring
      have eoff : offset + 100 * (k + 1) = offset + 100 + 100 * k := by ring
      rw [efun, efun2]
      simp only [List.range_succ_eq_map, List.map_cons, List.map_map, Function.comp_def,
        List.join, Nat.succ_eq_add_one, Nat.mul_zero, Nat.add_zero,
        Nat.succ_sub_succ_eq_sub, eoff, List.flatten_cons, List.append_assoc,
        List.singleton_append, List.cons_append, List.nil_append, List.append_nil]

theorem fetchLoop_stop_short (api : Nat → ApiResponse) (fuel offset : Nat)
    (acc : List RawRecord) (reqs : List Nat)
    (h200 : (api offset).status_code = 200)
    (hlt : (api offset).records.length < 100) :
    fetchLoop api (fuel + 1) offset acc reqs =
      (acc ++ (if (api offset).records.isEmpty then [] else (api offset).records),
       reqs ++ [offset]) := by
  simp only [fetchLoop]
  cases hrec : (api offset).records with
  | nil => simp [h200, hrec]
  | cons a b =>
    have hlt2 : (a :: b).length < 100 := by rw [hrec] at hlt; exact hlt
    simp [h200, hrec, hlt2]
    intro hcontra
    simp at hlt2
    omega

theorem fetchLoop_stop_err (api : Nat → ApiResponse) (fuel offset : Nat)
    (acc : List RawRecord) (reqs : List Nat)
    (h : ¬(api offset).status_code = 200) :
    fetchLoop api (fuel + 1) offset acc reqs = (acc, reqs ++ [offset]) := by
  simp only [fetchLoop]
  simp [h]

/-- C1: if the API answers pages 0..k-1 with full pages of 100 and page
k is the first empty-or-short page, the fetcher requests exactly the
offsets 0, 100, …, 100·k — nothing beyond the stopping page — and
returns the full pages followed by the stopping page when it is
non-empty, the stopping page being dropped when empty. -/
theorem get_all_parking_data_stop (api : Nat → ApiResponse) (fuel k : Nat)
    (hfull : ∀ j, j < k → (api (100 * j)).status_code = 200 ∧
      (api (100 * j)).records.length = 100)
    (h200 : (api (100 * k)).status_code = 200)
    (hshort : (api (100 * k)).records.length < 100)
    (hfuel : k < fuel) :
    get_all_parking_data api fuel =
      (((List.range k).map (fun j => (api (100 * j)).records)).join ++
         (if (api (100 * k)).records.isEmpty then [] else (api (100 * k)).records),
       (List.range (k + 1)).map (fun j => 100 * j)) := by
  unfold get_all_parking_data
  have hfull0 : ∀ j, j < k → (api (0 + 100 * j)).status_code = 200 ∧
      (api (0 + 100 * j)).records.length = 100 := by
    intro j hj
    simpa using hfull j hj
  rw [fetchLoop_advance api k fuel 0 [] [] (by omega) hfull0]
  simp only [Nat.zero_add]
  have e1 : fuel - k = (fuel - k - 1) + 1 := by omega
  rw [e1, fetchLoop_stop_short api (fuel - k - 1) (100 * k) _ _ h200 hshort]
  simp [List.range_succ]

/-- An API with one full page at offset 0 and a short non-empty page at
every later offset. -/
def apiEx1 : Nat → ApiResponse := fun offset =>
  if offset = 0 then ⟨200, List.replicate 100 [("kerbsideid", JValue.int 1)]⟩
  else ⟨200, [[("kerbsideid", JValue.int 2)]]⟩

/-- C1 witness: against `apiEx1` the fetcher requests offsets 0 and 100
only, and returns the full page followed by the short page. -/
theorem get_all_parking_data_stop_witness :
    (∀ j, j < 1 → (apiEx1 (100 * j)).status_code = 200 ∧
      (apiEx1 (100 * j)).records.length = 100) ∧
    (apiEx1 (100 * 1)).status_code = 200 ∧
    (apiEx1 (100 * 1)).records.length < 100 ∧ (1 : Nat) < 2 ∧
    get_all_parking_data apiEx1 2 =
      (((List.range 1).map (fun j => (apiEx1 (100 * j)).records)).join ++
         (if (apiEx1 (100 * 1)).records.isEmpty then [] else (apiEx1 (100 * 1)).records),
       (List.range 2).map (fun j => 100 * j)) :=
  ⟨by decide, by decide, by decide, by decide,
    get_all_parking_data_stop apiEx1 2 1 (by decide) (by decide) (by decide) (by decide)⟩

/-- C9: the fetcher preserves page order and content — whenever pages
0..k-1 are full successes and page k stops the loop (non-success, or
short, or empty), the result is exactly the concatenation of the full
pages in request order, followed by page k exactly when it was a
successful non-empty (short) page; on a non-success stop the result is
exactly the pages received before the failure. -/
theorem get_all_parking_data_concat (api : Nat → ApiResponse) (fuel k : Nat)
    (hfull : ∀ j, j < k → (api (100 * j)).status_code = 200 ∧
      (api (100 * j)).records.length = 100)
    (hstop : ¬(api (100 * k)).status_code = 200 ∨ (api (100 * k)).records.length < 100)
    (hfuel : k < fuel) :
    get_all_parking_data api fuel =
      (((List.range k).map (fun j => (api (100 * j)).records)).join ++
         (if (api (100 * k)).status_code = 200 ∧ (api (100 * k)).records.isEmpty = false
          then (api (100 * k)).records else []),
       (List.range (k + 1)).map (fun j => 100 * j)) := by
  unfold get_all_parking_data
  have hfull0 : ∀ j, j < k → (api (0 + 100 * j)).status_code = 200 ∧
      (api (0 + 100 * j)).records.length = 100 := by
    intro j hj
    simpa using hfull j hj
  rw [fetchLoop_advance api k fuel 0 [] [] (by omega) hfull0]
  simp only [Nat.zero_add]
  have e1 : fuel - k = (fuel - k - 1) + 1 := by omega
  by_cases hs : (api (100 * k)).status_code = 200
  · have hshort : (api (100 * k)).records.length < 100 :=
      hstop.resolve_left (not_not_intro hs)
    rw [e1, fetchLoop_stop_short api (fuel - k - 1) (100 * k) _ _ hs hshort]
    cases hrec : (api (100 * k)).records.isEmpty with
    | true => simp [List.range_succ, hs, hrec]
    | false => simp [List.range_succ, hs, hrec]
  · rw [e1, fetchLoop_stop_err api (fuel - k - 1) (100 * k) _ _ hs]
    simp [List.range_succ, hs]

/-- An API with one full page at offset 0 and a non-success response,
carrying records that must be discarded, at every later offset. -/
def apiEx2 : Nat → ApiResponse := fun offset =>
  if offset = 0 then ⟨200, List.replicate 100 [("kerbsideid", JValue.int 1)]⟩
  else ⟨500, [[("kerbsideid", JValue.int 9)]]⟩

/-- C9 witness: against `apiEx2` the fetcher returns exactly the one
page received before the failure, dropping the failed response's
records. -/
theorem get_all_parking_data_concat_witness :
    (∀ j, j < 1 → (apiEx2 (100 * j)).status_code = 200 ∧
      (apiEx2 (100 * j)).records.length = 100) ∧
    ¬(apiEx2 (100 * 1)).status_code = 200 ∧ (1 : Nat) < 3 ∧
    get_all_parking_data apiEx2 3 =
      (((List.range 1).map (fun j => (apiEx2 (100 * j)).records)).join ++
         (if (apiEx2 (100 * 1)).status_code = 200 ∧ (apiEx2 (100 * 1)).records.isEmpty = false
          then (apiEx2 (100 * 1)).records else []),
       (List.range 2).map (fun j => 100 * j)) :=
  ⟨by decide, by decide, by decide,
    get_all_parking_data_concat apiEx2 3 1 (by decide) (Or.inl (by decide)) (by decide)⟩

end Collector
